import Mathlib

/-
Shallow embedding of the configurator core (catalog store, variation
registry, bundle matcher, tabular codec, presentation projector) of the
`italky36/configurator` repository, together with theorems settling the
frozen claims about it.  Every definition is translated from the Python
source (`src/app/...`); the file is organised as: Python value model,
tabular codec (`excel.py`, `admin.py`), gallery parsing (`schemas.py`,
`models.py`), bundle matcher (`api/bundles.py`), variation registry
(`admin_routes.py`), bundle admin mutation (`admin.py`), URL resolution
(`api/meta.py`), followed by the claim theorems.
-/

deriving instance DecidableEq for Except

namespace Configurator

/-- Python runtime values as they appear in spreadsheet cells and ORM
fields.  Floats are modelled as rationals (their arithmetic in the code
under study is limited to truncation and identity); datetimes as opaque
ISO strings. -/
inductive PyVal where
  | none
  | str (s : String)
  | int (n : Int)
  | float (q : Rat)
  | bool (b : Bool)
  | dt (iso : String)
  deriving DecidableEq, Repr

/-- Model of Python `str(value)` for the values above.  Rationals are
rendered with Lean's rational notation; only the non-float cases are
relied on by any claim. -/
def pyStr : PyVal → String
  | PyVal.none => "None"
  | PyVal.str s => s
  | PyVal.int n => toString n
  | PyVal.float q => toString q
  | PyVal.bool b => if b then "True" else "False"
  | PyVal.dt iso => iso

/-- Model of Python truthiness `bool(value)`. -/
def pyTruthy : PyVal → Bool
  | PyVal.none => false
  | PyVal.str s => s != ""
  | PyVal.int n => n != 0
  | PyVal.float q => q != 0
  | PyVal.bool b => b
  | PyVal.dt _ => true

/-- Lower-casing as used by Python `str.lower` on the strings occurring
here: ASCII letters and the Cyrillic uppercase range (for the localized
"yes" literal). -/
def pyLowerChar (c : Char) : Char :=
  if 65 ≤ c.toNat ∧ c.toNat ≤ 90 then Char.ofNat (c.toNat + 32)
  else if 1040 ≤ c.toNat ∧ c.toNat ≤ 1071 then Char.ofNat (c.toNat + 32)
  else if c.toNat = 1025 then Char.ofNat 1105
  else c

/-- Model of Python `str.lower`. -/
def pyLower (s : String) : String := String.mk (s.data.map pyLowerChar)

/-- Model of Python `str.strip()`: drop whitespace from both ends. -/
def pyStrip (s : String) : String :=
  String.mk (((s.data.dropWhile Char.isWhitespace).reverse.dropWhile
    Char.isWhitespace).reverse)

/-- Decimal digit value of a character, if any. -/
def digitVal (c : Char) : Option Nat :=
  if 48 ≤ c.toNat ∧ c.toNat ≤ 57 then Option.some (c.toNat - 48) else Option.none

/-- Parse a nonempty all-digit character list as a natural number. -/
def parseDigits (cs : List Char) : Option Nat :=
  if cs = [] then Option.none
  else if cs.all (fun c => (digitVal c).isSome) then
    Option.some (cs.foldl (fun a c => a * 10 + ((digitVal c).getD 0)) 0)
  else Option.none

/-- Model of Python `int(s)` on strings: optional surrounding whitespace,
optional sign, then decimal digits; anything else raises ValueError
(here: `Option.none`). -/
def pyIntParse (s : String) : Option Int :=
  match (pyStrip s).data with
  | [] => Option.none
  | c :: rest =>
    if c = '-' then (parseDigits rest).map (fun n => -(n : Int))
    else if c = '+' then (parseDigits rest).map (fun n => (n : Int))
    else (parseDigits (c :: rest)).map (fun n => (n : Int))

/-- Model of Python `float(s)` on strings: optional sign, digits with an
optional decimal point and an optional exponent; anything else raises
ValueError (here: `Option.none`).  The special spellings inf/nan are not
modelled. -/
def pyFloatParse (s : String) : Option Rat :=
  let t := (pyStrip s).data
  let (sgn, t1) : Int × List Char :=
    match t with
    | '-' :: rest => (-1, rest)
    | '+' :: rest => (1, rest)
    | _ => (1, t)
  let intPart := t1.takeWhile (fun c => (digitVal c).isSome)
  let t2 := t1.drop intPart.length
  let (fracPart, t3) : List Char × List Char :=
    match t2 with
    | '.' :: rest =>
      (rest.takeWhile (fun c => (digitVal c).isSome),
        rest.drop (rest.takeWhile (fun c => (digitVal c).isSome)).length)
    | _ => ([], t2)
  if intPart = [] ∧ fracPart = [] then Option.none
  else
    let mant : Int := sgn *
      (((intPart ++ fracPart).foldl (fun a c => a * 10 + ((digitVal c).getD 0)) 0 : Nat) : Int)
    match t3 with
    | [] => Option.some (mkRat mant (10 ^ fracPart.length))
    | e :: rest =>
      if e = 'e' ∨ e = 'E' then
        let (esgn, ds) : Bool × List Char :=
          match rest with
          | '-' :: r => (true, r)
          | '+' :: r => (false, r)
          | _ => (false, rest)
        match parseDigits ds with
        | Option.some k =>
          Option.some (if esgn then mkRat mant (10 ^ (fracPart.length + k))
            else mkRat (mant * ((10 : Nat) ^ k : Int)) (10 ^ fracPart.length))
        | Option.none => Option.none
      else Option.none

/-- Truncation toward zero, the semantics of Python `int(float)`:
`Int.tdiv` is T-division, rounding toward zero. -/
def pyTrunc (q : Rat) : Int := Int.tdiv q.num (q.den : Int)

/-- Declared column runtime types occurring in the importable tables of
this repository (Boolean/Integer/String/Text/DateTime columns), plus the
case where `column.type.python_type` raises NotImplementedError
(`noPyType`). -/
inductive ColType where
  | boolCol
  | intCol
  | floatCol
  | strCol
  | dateCol
  | noPyType
  deriving DecidableEq, Repr

/-- Conversion failure: the ValueError / TypeError a Python-level
conversion raises, which aborts an import. -/
inductive ConvError where
  | valueError
  | typeError
  deriving DecidableEq, Repr

/-- Strings whose trimmed lowercase form counts as true for boolean
columns (`admin.py` line 374; the last entry is the localized "yes"). -/
def boolTrueStrings : List String := ["1", "true", "yes", "on", "да"]

/-- Embedding of `ExcelImportExportMixin._convert_value` (`admin.py`
lines 365-388).  A `None` cell is returned unchanged before any
type-specific rule runs; a column whose runtime type cannot be
introspected passes the value through; otherwise the value is coerced to
the column's type, raising (here: `Except.error`) where the Python
constructor would. -/
def convert_value (col : ColType) (v : PyVal) : Except ConvError PyVal :=
  if v = PyVal.none then Except.ok PyVal.none
  else match col with
  | ColType.noPyType => Except.ok v
  | ColType.boolCol =>
    match v with
    | PyVal.str s =>
      Except.ok (PyVal.bool (boolTrueStrings.contains (pyLower (pyStrip s))))
    | _ => Except.ok (PyVal.bool (pyTruthy v))
  | ColType.intCol =>
    match v with
    | PyVal.str s =>
      if pyStrip s = "" then Except.ok PyVal.none
      else
        match pyIntParse s with
        | Option.some n => Except.ok (PyVal.int n)
        | Option.none => Except.error ConvError.valueError
    | PyVal.float q => Except.ok (PyVal.int (pyTrunc q))
    | PyVal.int n => Except.ok (PyVal.int n)
    | PyVal.bool b => Except.ok (PyVal.int (if b then 1 else 0))
    | PyVal.dt _ => Except.error ConvError.typeError
    | PyVal.none => Except.ok PyVal.none
  | ColType.floatCol =>
    match v with
    | PyVal.str s =>
      match pyFloatParse s with
      | Option.some q => Except.ok (PyVal.float q)
      | Option.none => Except.error ConvError.valueError
    | PyVal.float q => Except.ok (PyVal.float q)
    | PyVal.int n => Except.ok (PyVal.float (mkRat n 1))
    | PyVal.bool b => Except.ok (PyVal.float (if b then 1 else 0))
    | PyVal.dt _ => Except.error ConvError.typeError
    | PyVal.none => Except.ok PyVal.none
  | ColType.strCol => Except.ok (PyVal.str (pyStr v))
  | ColType.dateCol =>
    match v with
    | PyVal.dt d => Except.ok (PyVal.dt d)
    | _ => Except.error ConvError.typeError

/-! ## Tabular codec: spreadsheet parsing (`excel.py`) -/

/-- Embedding of `excel._safe_header` (`excel.py` lines 67-70): a `None`
cell gives the empty string, any other cell its trimmed string form. -/
def safe_header (v : PyVal) : String :=
  match v with
  | PyVal.none => ""
  | _ => pyStrip (pyStr v)

/-- Python dict construction from an iterated sequence of key/value
pairs: a repeated key keeps its first position but takes the last
value. -/
def dictOfPairs {α : Type} (l : List (String × α)) : List (String × α) :=
  l.foldl (fun acc kv =>
    if acc.any (fun p => p.1 = kv.1) then
      acc.map (fun p => if p.1 = kv.1 then (p.1, kv.2) else p)
    else acc ++ [kv]) []

/-- Header extraction of `excel.parse_xlsx` line 49: trim every first-row
cell and drop those that are empty after trimming. -/
def retainedHeaders (headerRow : List PyVal) : List String :=
  headerRow.filterMap (fun c =>
    if safe_header c = "" then Option.none else Option.some (safe_header c))

/-- Embedding of `excel.parse_xlsx` (`excel.py` lines 38-58) applied to
the worksheet's cell rows.  The first row's cells are trimmed to headers
and empty-after-trim headers are dropped; each later row is zipped
against the retained header list positionally; a row whose mapped values
are all `None`/`""` is skipped; with no retained header no rows are
produced. -/
def parse_xlsx (sheetRows : List (List PyVal)) : List (List (String × PyVal)) :=
  match sheetRows with
  | [] => []
  | headerRow :: dataRows =>
    if retainedHeaders headerRow = [] then []
    else dataRows.filterMap (fun values =>
      if (dictOfPairs ((retainedHeaders headerRow).zip values)).any
          (fun p => p.2 ≠ PyVal.none ∧ p.2 ≠ PyVal.str "") then
        Option.some (dictOfPairs ((retainedHeaders headerRow).zip values))
      else Option.none)

/-! ## Tabular codec: bulk import (`admin.py`) -/

/-- A stored record: the surrogate primary key (assigned at commit time
for new records, hence optional in the pending state) and the column
values set so far. -/
structure Rec where
  pk : Option Int
  fields : List (String × PyVal)
  deriving DecidableEq, Repr

/-- Schema of the import target: the table's columns with their runtime
types, and the primary-key column name (`admin.py` line 344). -/
structure TableSchema where
  columns : List (String × ColType)
  pkName : String
  deriving DecidableEq, Repr

/-- Look up a column's type in the schema. -/
def TableSchema.colType (ts : TableSchema) (k : String) : Option ColType :=
  (ts.columns.find? (fun p => p.1 = k)).map Prod.snd

/-- Convert one row's cells, keeping only keys that name real columns
(`admin.py` lines 347-351); the first cell whose conversion raises
aborts with that error. -/
def convertRow (ts : TableSchema) : List (String × PyVal) →
    Except ConvError (List (String × PyVal))
  | [] => Except.ok []
  | (k, v) :: rest =>
    match ts.colType k with
    | Option.none => convertRow ts rest
    | Option.some ct =>
      match convert_value ct v with
      | Except.error e => Except.error e
      | Except.ok cv =>
        match convertRow ts rest with
        | Except.error e => Except.error e
        | Except.ok r => Except.ok ((k, cv) :: r)

/-- Overwrite-or-append assignment of one converted field on a pending
record (`setattr(obj, field, value)`). -/
def setField (fields : List (String × PyVal)) (k : String) (v : PyVal) :
    List (String × PyVal) :=
  if fields.any (fun p => p.1 = k) then
    fields.map (fun p => if p.1 = k then (p.1, v) else p)
  else fields ++ [(k, v)]

/-- The store: committed records, in insertion order. -/
abbrev Store := List Rec

/-- Apply one imported row to the session's pending state (`admin.py`
lines 346-362): convert the cells, skip the row when nothing mapped, pop
the primary key, update the record it designates when present, else add
a new record (whose key is assigned later, at commit). -/
def importRow (ts : TableSchema) (working : Store) (row : List (String × PyVal)) :
    Except ConvError Store :=
  match convertRow ts row with
  | Except.error e => Except.error e
  | Except.ok cleaned =>
    if cleaned = [] then Except.ok working
    else
      let pkv := ((cleaned.find? (fun p => p.1 = ts.pkName)).map Prod.snd).getD PyVal.none
      let rest := cleaned.filter (fun p => p.1 ≠ ts.pkName)
      let target : Option Int :=
        match pkv with
        | PyVal.int n => Option.some n
        | _ => Option.none
      match target with
      | Option.some n =>
        if working.any (fun r => r.pk = Option.some n) then
          Except.ok (working.map (fun r =>
            if r.pk = Option.some n then
              Rec.mk r.pk (rest.foldl (fun fs kv => setField fs kv.1 kv.2) r.fields)
            else r))
        else
          Except.ok (working ++ [Rec.mk Option.none
            (rest.foldl (fun fs kv => setField fs kv.1 kv.2) [])])
      | Option.none =>
        Except.ok (working ++ [Rec.mk Option.none
          (rest.foldl (fun fs kv => setField fs kv.1 kv.2) [])])

/-- Process all rows of one import inside the session, committing only
after the last row (`admin.py` lines 345-363): the working state threads
through the rows and the first conversion error abandons it. -/
def importRows (ts : TableSchema) (working : Store) :
    List (List (String × PyVal)) → Except ConvError Store
  | [] => Except.ok working
  | row :: rows =>
    match importRow ts working row with
    | Except.error e => Except.error e
    | Except.ok w => importRows ts w rows

/-- Embedding of `handle_import_bytes` / `_import_rows` at the level of
the durable store: the session context opens on the committed store,
`session.commit()` publishes the final working state, and an exception
escaping the block leaves the committed store untouched. -/
def handle_import (ts : TableSchema) (store : Store)
    (rows : List (List (String × PyVal))) : Store × Option ConvError :=
  match importRows ts store rows with
  | Except.ok s => (s, Option.none)
  | Except.error e => (store, Option.some e)

/-! ## Gallery parsing (`schemas.py`, `models.py`) and its JSON model -/

/-- Values produced by Python `json.loads`: numbers keep their raw
numeral (no claim examines their arithmetic), objects their key order
after duplicate-key resolution. -/
inductive PyJson where
  | null
  | bool (b : Bool)
  | num (raw : String)
  | str (s : String)
  | arr (xs : List PyJson)
  | obj (kvs : List (String × PyJson))

/-- JSON insignificant whitespace. -/
def jsonWs (c : Char) : Bool :=
  c = ' ' ∨ c = '\t' ∨ c = '\n' ∨ c = '\r'

/-- Hexadecimal digit value, if any. -/
def hexVal (c : Char) : Option Nat :=
  if 48 ≤ c.toNat ∧ c.toNat ≤ 57 then Option.some (c.toNat - 48)
  else if 97 ≤ c.toNat ∧ c.toNat ≤ 102 then Option.some (c.toNat - 87)
  else if 65 ≤ c.toNat ∧ c.toNat ≤ 70 then Option.some (c.toNat - 55)
  else Option.none

/-- Body of a JSON string literal, after its opening quote: ordinary
characters, the standard escapes and 4-digit unicode escapes; a raw
control character or a bad escape is a decode error. -/
def parseStrBody (fuel : Nat) (cs : List Char) (acc : List Char) :
    Option (String × List Char) :=
  match fuel with
  | 0 => Option.none
  | Nat.succ fuel =>
    match cs with
    | [] => Option.none
    | c :: rest =>
      if c = '"' then Option.some (String.mk acc.reverse, rest)
      else if c = '\\' then
        match rest with
        | [] => Option.none
        | e :: rest2 =>
          if e = '"' then parseStrBody fuel rest2 ('"' :: acc)
          else if e = '\\' then parseStrBody fuel rest2 ('\\' :: acc)
          else if e = '/' then parseStrBody fuel rest2 ('/' :: acc)
          else if e = 'b' then parseStrBody fuel rest2 (Char.ofNat 8 :: acc)
          else if e = 'f' then parseStrBody fuel rest2 (Char.ofNat 12 :: acc)
          else if e = 'n' then parseStrBody fuel rest2 ('\n' :: acc)
          else if e = 'r' then parseStrBody fuel rest2 ('\r' :: acc)
          else if e = 't' then parseStrBody fuel rest2 ('\t' :: acc)
          else if e = 'u' then
            match rest2 with
            | h1 :: h2 :: h3 :: h4 :: rest3 =>
              match hexVal h1, hexVal h2, hexVal h3, hexVal h4 with
              | Option.some a, Option.some b, Option.some c2, Option.some d =>
                parseStrBody fuel rest3
                  (Char.ofNat (((a * 16 + b) * 16 + c2) * 16 + d) :: acc)
              | _, _, _, _ => Option.none
            | _ => Option.none
          else Option.none
      else if c.toNat < 32 then Option.none
      else parseStrBody fuel rest (c :: acc)

/-- A JSON number token at the head of the input: optional minus, a
leading-zero-free integer part, optional fraction, optional exponent.
Returns the raw numeral and the remaining input. -/
def parseNumToken (cs : List Char) : Option (String × List Char) :=
  let (sgn, t1) : List Char × List Char :=
    match cs with
    | '-' :: rest => (['-'], rest)
    | _ => ([], cs)
  let intPart := t1.takeWhile (fun c => (digitVal c).isSome)
  let t2 := t1.drop intPart.length
  let intOk : Bool :=
    match intPart with
    | [] => false
    | ['0'] => true
    | c :: _ => c ≠ '0'
  if intOk = false then Option.none
  else
    let (fracPart, t3) : List Char × List Char :=
      match t2 with
      | '.' :: rest =>
        let ds := rest.takeWhile (fun c => (digitVal c).isSome)
        if ds = [] then ([], t2) else ('.' :: ds, rest.drop ds.length)
      | _ => ([], t2)
    if t2 ≠ [] ∧ fracPart = [] ∧ t2.head? = Option.some '.' then Option.none
    else
      match t3 with
      | e :: rest =>
        if e = 'e' ∨ e = 'E' then
          let (esgn, ds0) : List Char × List Char :=
            match rest with
            | '-' :: r => (['-'], r)
            | '+' :: r => (['+'], r)
            | _ => ([], rest)
          let ds := ds0.takeWhile (fun c => (digitVal c).isSome)
          if ds = [] then Option.none
          else
            Option.some (String.mk (sgn ++ intPart ++ fracPart ++ e :: esgn ++ ds),
              ds0.drop ds.length)
        else Option.some (String.mk (sgn ++ intPart ++ fracPart), t3)
      | [] => Option.some (String.mk (sgn ++ intPart ++ fracPart), t3)

mutual

/-- One JSON value at the head of the input, leading whitespace
allowed. -/
def parseValue : Nat → List Char → Option (PyJson × List Char)
  | 0, _ => Option.none
  | Nat.succ fuel, cs =>
    match cs.dropWhile jsonWs with
    | [] => Option.none
    | c :: rest =>
      if c = '"' then
        (parseStrBody (rest.length + 1) rest []).map
          (fun p => (PyJson.str p.1, p.2))
      else if c = '[' then
        (match rest.dropWhile jsonWs with
        | ']' :: rest2 => Option.some (PyJson.arr [], rest2)
        | _ => parseArrItems fuel rest [])
      else if c = '{' then
        (match rest.dropWhile jsonWs with
        | '}' :: rest2 => Option.some (PyJson.obj [], rest2)
        | _ => parseObjItems fuel rest [])
      else if c = 't' then
        (match rest with
        | 'r' :: 'u' :: 'e' :: rest2 => Option.some (PyJson.bool true, rest2)
        | _ => Option.none)
      else if c = 'f' then
        (match rest with
        | 'a' :: 'l' :: 's' :: 'e' :: rest2 => Option.some (PyJson.bool false, rest2)
        | _ => Option.none)
      else if c = 'n' then
        (match rest with
        | 'u' :: 'l' :: 'l' :: rest2 => Option.some (PyJson.null, rest2)
        | _ => Option.none)
      else if c = '-' ∨ (digitVal c).isSome then
        (parseNumToken (c :: rest)).map (fun p => (PyJson.num p.1, p.2))
      else Option.none

/-- Comma-separated array items, called after the opening bracket of a
nonempty array. -/
def parseArrItems : Nat → List Char → List PyJson → Option (PyJson × List Char)
  | 0, _, _ => Option.none
  | Nat.succ fuel, cs, acc =>
    match parseValue fuel cs with
    | Option.none => Option.none
    | Option.some (v, rest) =>
      match rest.dropWhile jsonWs with
      | ',' :: rest2 => parseArrItems fuel rest2 (v :: acc)
      | ']' :: rest2 => Option.some (PyJson.arr (v :: acc).reverse, rest2)
      | _ => Option.none

/-- Comma-separated object members, called after the opening brace of a
nonempty object; duplicate keys resolve as in a Python dict. -/
def parseObjItems : Nat → List Char → List (String × PyJson) →
    Option (PyJson × List Char)
  | 0, _, _ => Option.none
  | Nat.succ fuel, cs, acc =>
    match cs.dropWhile jsonWs with
    | '"' :: rest =>
      (match parseStrBody (rest.length + 1) rest [] with
      | Option.none => Option.none
      | Option.some (key, rest2) =>
        match rest2.dropWhile jsonWs with
        | ':' :: rest3 =>
          (match parseValue fuel rest3 with
          | Option.none => Option.none
          | Option.some (v, rest4) =>
            match rest4.dropWhile jsonWs with
            | ',' :: rest5 => parseObjItems fuel rest5 ((key, v) :: acc)
            | '}' :: rest5 =>
              Option.some (PyJson.obj (dictOfPairs (((key, v) :: acc).reverse)), rest5)
            | _ => Option.none)
        | _ => Option.none)
    | _ => Option.none

end

/-- Model of Python `json.loads`: parse one JSON value, allowing
surrounding whitespace and nothing else. -/
def json_loads (s : String) : Option PyJson :=
  match parseValue (4 * (s.length + 1)) s.data with
  | Option.some (j, rest) =>
    if rest.dropWhile jsonWs = [] then Option.some j else Option.none
  | Option.none => Option.none

/-- Inputs `schemas.parse_gallery` accepts (`str | Sequence[str] | None`);
the stored gallery column always arrives as the `str` case (or `none`). -/
inductive GalleryValue where
  | none
  | str (s : String)
  | seq (xs : List PyVal)

/-- Python iteration in the comprehension
`[str(item) for item in data if isinstance(item, str) and item]` applied
to a decoded JSON payload: lists yield their elements, strings their
characters, dicts their keys; a number, boolean or null is not iterable
and raises TypeError (`Except.error`). -/
def iterStrItems : PyJson → Except Unit (List String)
  | PyJson.arr xs =>
    Except.ok (xs.filterMap (fun j =>
      match j with
      | PyJson.str s => if s = "" then Option.none else Option.some s
      | _ => Option.none))
  | PyJson.str s => Except.ok (s.data.map (fun c => String.mk [c]))
  | PyJson.obj kvs =>
    Except.ok ((kvs.map Prod.fst).filter (fun k => k ≠ ""))
  | _ => Except.error ()

/-- Embedding of `schemas.parse_gallery` (`schemas.py` lines 11-25).
`None` and blank strings give `[]`; a JSON decode failure is caught and
gives `[]`; the decoded payload is then iterated without a list check,
so a non-iterable payload escapes as a TypeError. -/
def parse_gallery : GalleryValue → Except Unit (List String)
  | GalleryValue.none => Except.ok []
  | GalleryValue.seq xs =>
    Except.ok (xs.filterMap (fun v =>
      match v with
      | PyVal.str s => if s = "" then Option.none else Option.some s
      | _ => Option.none))
  | GalleryValue.str s =>
    if pyStrip s = "" then Except.ok []
    else
      match json_loads (pyStrip s) with
      | Option.none => Except.ok []
      | Option.some j => iterStrItems j

/-- The `raw = self.gallery_image_urls or "[]"` step of
`CarcassDesignCombination.gallery_urls` (`models.py` line 122): a falsy
stored value is replaced by the literal "[]". -/
def galleryRaw (stored : Option String) : String :=
  match stored with
  | Option.none => "[]"
  | Option.some s => if s = "" then "[]" else s

/-- Embedding of `CarcassDesignCombination.gallery_urls` (`models.py`
lines 120-132): a decode failure gives `[]`, and any decoded payload
that is not a list gives `[]`. -/
def gallery_urls (stored : Option String) : List String :=
  match json_loads (galleryRaw stored) with
  | Option.none => []
  | Option.some j =>
    match j with
    | PyJson.arr xs =>
      xs.filterMap (fun i =>
        match i with
        | PyJson.str s => if s = "" then Option.none else Option.some s
        | _ => Option.none)
    | _ => []

/-- True on decoded payloads that Python cannot iterate: numbers,
booleans and null. -/
def PyJson.scalar : PyJson → Bool
  | PyJson.null => true
  | PyJson.bool _ => true
  | PyJson.num _ => true
  | _ => false

/-- True when a string decodes (after stripping) to a non-iterable JSON
payload — exactly the stored gallery values on which `parse_gallery`
raises. -/
def decodesToScalar (s : String) : Bool :=
  match json_loads (pyStrip s) with
  | Option.some j => j.scalar
  | Option.none => false

/-! ## Bundle matcher (`api/bundles.py`) -/

/-- The columns of a stored `Bundle` row that the matcher and the public
listing read (`models.py` lines 141-162). -/
structure Bundle where
  id : Nat
  coffee_machine_id : Nat
  fridge_id : Option Nat
  carcass_id : Nat
  carcass_color_id : Nat
  design_color_id : Nat
  terminal_id : Option Nat
  carcass_design_combination_id : Option Nat
  custom_price : Option Int
  ozon_url : Option String
  is_available : Bool
  show_on_site : Bool
  deriving DecidableEq, Repr

/-- Query parameters of `GET /preview` (`api/bundles.py` lines 46-53):
machine, carcass and the two colors are required, fridge, terminal and
variation id optional. -/
structure PreviewQuery where
  coffee_machine_id : Nat
  fridge_id : Option Nat
  carcass_id : Nat
  carcass_color_id : Nat
  design_color_id : Nat
  terminal_id : Option Nat
  carcass_design_combination_id : Option Nat
  deriving DecidableEq, Repr

/-- The filter list built by `preview_bundle` (`api/bundles.py` lines
58-73), as the predicate a stored row must satisfy: equality on the four
mandatory ids; an omitted fridge/terminal matches only a null stored
field and a supplied one only that exact id; a supplied variation id is
one more equality filter. -/
def matchesQuery (q : PreviewQuery) (b : Bundle) : Bool :=
  b.coffee_machine_id == q.coffee_machine_id &&
  b.carcass_id == q.carcass_id &&
  b.carcass_color_id == q.carcass_color_id &&
  b.design_color_id == q.design_color_id &&
  (match q.fridge_id with
   | Option.none => b.fridge_id == Option.none
   | Option.some f => b.fridge_id == Option.some f) &&
  (match q.carcass_design_combination_id with
   | Option.none => true
   | Option.some c => b.carcass_design_combination_id == Option.some c) &&
  (match q.terminal_id with
   | Option.none => b.terminal_id == Option.none
   | Option.some t => b.terminal_id == Option.some t)

/-- Response shape of `GET /preview` (`schemas.py` lines 123-127). -/
structure PreviewResponse where
  is_exact_bundle : Bool
  bundle_id : Option Nat
  custom_price : Option Int
  ozon_url : Option String
  deriving DecidableEq, Repr

/-- Embedding of `preview_bundle` (`api/bundles.py` lines 45-87) over
the stored bundle rows: the first row satisfying the filters (the
`limit(1)` query) is reported as an exact bundle, otherwise
`is_exact_bundle` is false. -/
def preview_bundle (store : List Bundle) (q : PreviewQuery) : PreviewResponse :=
  match store.find? (fun b => matchesQuery q b) with
  | Option.none => PreviewResponse.mk false Option.none Option.none Option.none
  | Option.some b =>
    PreviewResponse.mk true (Option.some b.id) b.custom_price b.ozon_url

/-- Embedding of `list_bundles` (`api/bundles.py` lines 35-42): all rows
with `show_on_site` set, in id order as stored. -/
def list_bundles (store : List Bundle) : List Bundle :=
  store.filter (fun b => b.show_on_site)

/-! ## Variation registry (`admin_routes.py`) -/

/-- A stored `CarcassDesignCombination` row, restricted to the columns
the registry operations read and write (`models.py` lines 95-112). -/
structure Combo where
  id : Nat
  carcass_id : Nat
  carcass_color_id : Nat
  design_color_id : Nat
  is_default : Bool
  deriving DecidableEq, Repr

/-- Durable state the registry routes operate on: the referenced
catalogs, the variation rows in insertion order, and the next surrogate
key the autoincrement column will hand out. -/
structure RegState where
  carcasses : List Nat
  carcassColors : List Nat
  designColors : List Nat
  combos : List Combo
  nextId : Nat
  deriving DecidableEq, Repr

/-- Outcome of a registry route: the created row's id, the duplicate
redirect, one of the 404 responses, or the set-default success
redirect. -/
inductive RegResult where
  | created (id : Nat)
  | duplicate
  | carcassNotFound
  | colorNotFound
  | variationNotFound
  | updated
  deriving DecidableEq, Repr

/-- Embedding of `_set_default_variation` (`admin_routes.py` lines
43-49): every variation of the carcass gets `is_default` true exactly
when its id is the chosen one; other carcasses are untouched. -/
def set_default_core (s : RegState) (carcassId variationId : Nat) : RegState :=
  RegState.mk s.carcasses s.carcassColors s.designColors
    (s.combos.map (fun c =>
      if c.carcass_id = carcassId then
        Combo.mk c.id c.carcass_id c.carcass_color_id c.design_color_id
          (c.id = variationId)
      else c))
    s.nextId

/-- Embedding of `create_variation` (`admin_routes.py` lines 52-112):
404 when the carcass is missing, the duplicate redirect when the triple
is already registered (checked before anything is inserted), 404 when a
referenced color is missing; otherwise the row is inserted with the
requested flag and, when the flag was requested, the default is
re-elected to the new row. -/
def create_variation (s : RegState) (carcassId ccId dcId : Nat)
    (isDefault : Bool) : RegState × RegResult :=
  if s.carcasses.contains carcassId = false then (s, RegResult.carcassNotFound)
  else if s.combos.any (fun c =>
      c.carcass_id = carcassId ∧ c.carcass_color_id = ccId ∧
        c.design_color_id = dcId) then
    (s, RegResult.duplicate)
  else if (s.carcassColors.contains ccId && s.designColors.contains dcId) = false then
    (s, RegResult.colorNotFound)
  else
    let newId := s.nextId
    let s1 := RegState.mk s.carcasses s.carcassColors s.designColors
      (s.combos ++ [Combo.mk newId carcassId ccId dcId isDefault]) (s.nextId + 1)
    (if isDefault then set_default_core s1 carcassId newId else s1,
      RegResult.created newId)

/-- Embedding of the `set_default_variation` route (`admin_routes.py`
lines 142-157): 404 when the variation does not exist or belongs to
another carcass, otherwise the default re-election of
`_set_default_variation`. -/
def set_default_variation (s : RegState) (carcassId variationId : Nat) :
    RegState × RegResult :=
  match s.combos.find? (fun c => c.id = variationId) with
  | Option.none => (s, RegResult.variationNotFound)
  | Option.some v =>
    if v.carcass_id ≠ carcassId then (s, RegResult.variationNotFound)
    else (set_default_core s carcassId variationId, RegResult.updated)

/-- The two registry operations claim C2 quantifies over. -/
inductive RegOp where
  | register (carcassId ccId dcId : Nat) (isDefault : Bool)
  | setDefault (carcassId variationId : Nat)
  deriving DecidableEq, Repr

/-- State reached after one registry route call (errors leave the store
unchanged, as each route returns before mutating). -/
def applyRegOp (s : RegState) : RegOp → RegState
  | RegOp.register c cc dc d => (create_variation s c cc dc d).1
  | RegOp.setDefault c v => (set_default_variation s c v).1

/-- State reached after a sequence of registry route calls. -/
def runRegOps (s : RegState) (ops : List RegOp) : RegState :=
  ops.foldl applyRegOp s

/-- Initial registry state: arbitrary catalogs, no variations. -/
def initRegState (cars ccs dcs : List Nat) : RegState :=
  RegState.mk cars ccs dcs [] 0

/-- Number of variations of one carcass that carry the default flag. -/
def countDefaults (carcassId : Nat) (l : List Combo) : Nat :=
  (l.filter (fun x => x.carcass_id == carcassId && x.is_default)).length

/-! ## Bundle admin mutation (`admin.py`, `BundleAdmin.on_model_change`) -/

/-- Values appearing in the sqladmin form-data dict handed to
`on_model_change`: nothing, strings, integers, or ORM instances of the
related models. -/
inductive FormVal where
  | none
  | str (s : String)
  | int (n : Int)
  | comboRef (c : Combo)
  | machineRef (id : Nat)
  | fridgeRef (id : Nat)
  | terminalRef (id : Nat)
  deriving DecidableEq, Repr

/-- Python truthiness of a form value. -/
def formTruthy : FormVal → Bool
  | FormVal.none => false
  | FormVal.str s => s != ""
  | FormVal.int n => n != 0
  | _ => true

/-- Dict lookup. -/
def dictGet {α : Type} (l : List (String × α)) (k : String) : Option α :=
  (l.find? (fun p => p.1 = k)).map Prod.snd

/-- Dict assignment `d[k] = v`: overwrite in place or append. -/
def dictSet {α : Type} (l : List (String × α)) (k : String) (v : α) :
    List (String × α) :=
  if l.any (fun p => p.1 = k) then
    l.map (fun p => if p.1 = k then (p.1, v) else p)
  else l ++ [(k, v)]

/-- Dict removal `d.pop(k, None)`: the removed value, if any, and the
remaining dict. -/
def dictPop {α : Type} (l : List (String × α)) (k : String) :
    Option α × List (String × α) :=
  (dictGet l k, l.filter (fun p => p.1 ≠ k))

/-- Resolution of the popped `carcass_design_combination` form value
(`admin.py` lines 758-765): a falsy value attaches nothing, an ORM
instance is used directly, anything else goes through `int(...)` (which
raises on non-numeric input) and a session lookup. -/
def resolveCombo (dbCombos : List Combo) (v : FormVal) :
    Except Unit (Option Combo) :=
  if formTruthy v = false then Except.ok Option.none
  else match v with
  | FormVal.comboRef c => Except.ok (Option.some c)
  | FormVal.str s =>
    (match pyIntParse s with
    | Option.some n => Except.ok (dbCombos.find? (fun c => (c.id : Int) = n))
    | Option.none => Except.error ())
  | FormVal.int n => Except.ok (dbCombos.find? (fun c => (c.id : Int) = n))
  | _ => Except.error ()

/-- One pass of the relation-field loop (`admin.py` lines 771-787) for a
single `(attr_name, column_name, model_cls, allow_empty)` tuple:
`refId` plays `isinstance(value, model_cls)`, `modelVal` the
`getattr(model, column_name, None)` fallback read from the row being
edited. -/
def relFieldStep (attr col : String) (allowEmpty : Bool)
    (refId : FormVal → Option Nat) (modelVal : Option Nat)
    (is_created : Bool) (data : List (String × FormVal)) :
    Except Unit (List (String × FormVal)) :=
  let popped := dictPop data attr
  let value := popped.1.getD FormVal.none
  let d1 := popped.2
  if value = FormVal.none ∨ value = FormVal.str "" ∨ value = FormVal.str "null" then
    if allowEmpty then Except.ok (dictSet d1 col FormVal.none)
    else if is_created = false ∧ modelVal.getD 0 ≠ 0 then
      Except.ok (dictSet d1 col (FormVal.int ((modelVal.getD 0) : Int)))
    else Except.ok d1
  else
    match refId value with
    | Option.some n => Except.ok (dictSet d1 col (FormVal.int (n : Int)))
    | Option.none =>
      match value with
      | FormVal.str s =>
        (match pyIntParse s with
        | Option.some n => Except.ok (dictSet d1 col (FormVal.int n))
        | Option.none => Except.error ())
      | FormVal.int n => Except.ok (dictSet d1 col (FormVal.int n))
      | _ => Except.error ()

/-- Embedding of `BundleAdmin.on_model_change` (`admin.py` lines
755-788): pop the attached variation, copy its id and the three
denormalized ids into the data dict when one resolves, then normalise
the machine/fridge/terminal relation fields; the final dict is what the
superclass applies to the bundle row. -/
def on_model_change (dbCombos : List Combo) (model : Bundle)
    (is_created : Bool) (data : List (String × FormVal)) :
    Except Unit (List (String × FormVal)) :=
  let popped := dictPop data "carcass_design_combination"
  match resolveCombo dbCombos (popped.1.getD FormVal.none) with
  | Except.error e => Except.error e
  | Except.ok comboOpt =>
    let data2 := match comboOpt with
      | Option.some combo =>
        dictSet (dictSet (dictSet (dictSet popped.2
          "carcass_design_combination_id" (FormVal.int (combo.id : Int)))
          "carcass_id" (FormVal.int (combo.carcass_id : Int)))
          "carcass_color_id" (FormVal.int (combo.carcass_color_id : Int)))
          "design_color_id" (FormVal.int (combo.design_color_id : Int))
      | Option.none => popped.2
    match relFieldStep "coffee_machine" "coffee_machine_id" false
        (fun v => match v with
          | FormVal.machineRef i => Option.some i
          | _ => Option.none)
        (Option.some model.coffee_machine_id) is_created data2 with
    | Except.error e => Except.error e
    | Except.ok data3 =>
      match relFieldStep "fridge" "fridge_id" true
          (fun v => match v with
            | FormVal.fridgeRef i => Option.some i
            | _ => Option.none)
          model.fridge_id is_created data3 with
      | Except.error e => Except.error e
      | Except.ok data4 =>
        relFieldStep "terminal" "terminal_id" true
          (fun v => match v with
            | FormVal.terminalRef i => Option.some i
            | _ => Option.none)
          model.terminal_id is_created data4

/-! ## Presentation projector: URL resolution (`api/meta.py`) -/

/-- Model of Python `str.startswith`. -/
def startsWithStr (s p : String) : Bool := p.data.isPrefixOf s.data

/-- Model of `str.rstrip` with the slash character: drop every trailing
slash. -/
def rstripSlashes (s : String) : String :=
  String.mk ((s.data.reverse.dropWhile (fun c => c = '/')).reverse)

/-- True when the last character of the string is a slash. -/
def endsWithSlash (s : String) : Bool := s.data.getLast? == Option.some '/'

/-- Embedding of `_absolute_url` (`api/meta.py` lines 44-51): falsy
references pass through, references beginning with the two hard-coded
scheme prefixes pass through, anything else is prefixed by the base URL
stripped of trailing slashes with a slash inserted unless the reference
already leads with one. -/
def absolute_url (value : Option String) (base : String) : Option String :=
  match value with
  | Option.none => Option.none
  | Option.some v =>
    if v = "" then Option.some v
    else if startsWithStr v "http://" ∨ startsWithStr v "https://" then
      Option.some v
    else
      Option.some (rstripSlashes base ++ (if startsWithStr v "/" then v else "/" ++ v))

/-! ## Registry invariant: at most one default per carcass -/

/-- States reachable by the registry routes: every variation id is below
the autoincrement counter, ids are pairwise distinct, and every carcass
carries at most one default flag. -/
def RegInv (s : RegState) : Prop :=
  (∀ x ∈ s.combos, x.id < s.nextId) ∧
  (s.combos.map Combo.id).Nodup ∧
  (∀ c, countDefaults c s.combos ≤ 1)

theorem regInv_init (cars ccs dcs : List Nat) :
    RegInv (initRegState cars ccs dcs) := by
  refine ⟨?_, ?_, ?_⟩ <;> simp [initRegState, countDefaults]

theorem countDefaults_map_sd (cid vid : Nat) (l : List Combo) :
    countDefaults cid (l.map (fun c =>
      if c.carcass_id = cid then
        Combo.mk c.id c.carcass_id c.carcass_color_id c.design_color_id
          (c.id = vid)
      else c)) =
    (l.filter (fun x => x.carcass_id == cid && x.id == vid)).length := by
  induction l with
  | nil => rfl
  | cons a l ih =>
    by_cases ha : a.carcass_id = cid
    · by_cases hv : a.id = vid <;>
        simp [countDefaults, List.filter_cons, ha, hv] at ih ⊢ <;> omega
    · simp [countDefaults, List.filter_cons, ha] at ih ⊢
      have ha2 : (a.carcass_id == cid) = false := by simpa using ha
      simp [ha2, ih]

theorem length_filter_map_eq {f : Combo → Combo} {p : Combo → Bool}
    (l : List Combo) (h : ∀ x ∈ l, p (f x) = p x) :
    ((l.map f).filter p).length = (l.filter p).length := by
  induction l with
  | nil => rfl
  | cons a l ih =>
    have ha := h a (List.mem_cons_self a l)
    have ih2 := ih (fun x hx => h x (List.mem_cons_of_mem a hx))
    rw [List.map_cons, List.filter_cons, List.filter_cons, ha]
    cases hpa : p a <;> simp [hpa, ih2]

theorem countDefaults_map_sd_other (c cid vid : Nat) (hne : c ≠ cid)
    (l : List Combo) :
    countDefaults c (l.map (fun x =>
      if x.carcass_id = cid then
        Combo.mk x.id x.carcass_id x.carcass_color_id x.design_color_id
          (x.id = vid)
      else x)) = countDefaults c l := by
  unfold countDefaults
  apply length_filter_map_eq
  intro x _
  by_cases hx : x.carcass_id = cid
  · have : (cid == c) = false := by
      simpa using fun hh => hne (hh.symm)
    simp [hx, this]
  · simp [hx]

theorem filter_by_id_le_one (cid vid : Nat) (l : List Combo)
    (h : (l.map Combo.id).Nodup) :
    (l.filter (fun x => x.carcass_id == cid && x.id == vid)).length ≤ 1 := by
  induction l with
  | nil => simp
  | cons a l ih =>
    simp only [List.map_cons, List.nodup_cons] at h
    by_cases hv : a.id = vid
    · have hnil : l.filter (fun x => x.carcass_id == cid && x.id == vid) = [] := by
        rw [List.filter_eq_nil_iff]
        intro x hx
        simp only [Bool.and_eq_true, beq_iff_eq, not_and]
        intro _ hxid
        have hxm : x.id ∈ l.map Combo.id := List.mem_map_of_mem Combo.id hx
        rw [hxid, ← hv] at hxm
        exact h.1 hxm
      by_cases ha : a.carcass_id = cid <;>
        simp [List.filter_cons, ha, hv, hnil]
    · have hv2 : (a.id == vid) = false := by simpa using hv
      simp [List.filter_cons, hv2, Bool.and_false]
      exact ih h.2

theorem sd_map_ids (cid vid : Nat) (l : List Combo) :
    (l.map (fun c =>
      if c.carcass_id = cid then
        Combo.mk c.id c.carcass_id c.carcass_color_id c.design_color_id
          (c.id = vid)
      else c)).map Combo.id = l.map Combo.id := by
  induction l with
  | nil => rfl
  | cons a l ih =>
    by_cases ha : a.carcass_id = cid <;> simp [ha, ih]

theorem regInv_set_default_core (s : RegState) (cid vid : Nat)
    (hb : ∀ x ∈ s.combos, x.id < s.nextId)
    (hn : (s.combos.map Combo.id).Nodup)
    (hd : ∀ c, c ≠ cid → countDefaults c s.combos ≤ 1) :
    RegInv (set_default_core s cid vid) := by
  refine ⟨?_, ?_, ?_⟩
  · intro x hx
    simp only [set_default_core, List.mem_map] at hx
    obtain ⟨y, hy, hxy⟩ := hx
    have : x.id = y.id := by
      subst hxy
      by_cases hc : y.carcass_id = cid <;> simp [hc]
    exact this ▸ hb y hy
  · show ((s.combos.map _).map Combo.id).Nodup
    rw [sd_map_ids]
    exact hn
  · intro c
    by_cases hc : c = cid
    · subst hc
      show countDefaults c (s.combos.map _) ≤ 1
      rw [countDefaults_map_sd]
      exact filter_by_id_le_one c vid s.combos hn
    · show countDefaults c (s.combos.map _) ≤ 1
      rw [countDefaults_map_sd_other c cid vid hc]
      exact hd c hc

theorem countDefaults_append (c : Nat) (l : List Combo) (x : Combo) :
    countDefaults c (l ++ [x]) =
      countDefaults c l +
        (if x.carcass_id == c && x.is_default then 1 else 0) := by
  simp only [countDefaults, List.filter_append]
  split <;> simp_all

theorem insert_bound_nodup (s : RegState) (cid cc dc : Nat) (d : Bool)
    (hb : ∀ x ∈ s.combos, x.id < s.nextId)
    (hn : (s.combos.map Combo.id).Nodup) :
    (∀ x ∈ s.combos ++ [Combo.mk s.nextId cid cc dc d],
      x.id < s.nextId + 1) ∧
    ((s.combos ++ [Combo.mk s.nextId cid cc dc d]).map Combo.id).Nodup := by
  constructor
  · intro x hx
    rcases List.mem_append.mp hx with hx | hx
    · exact Nat.lt_succ_of_lt (hb x hx)
    · simp at hx
      subst hx
      exact Nat.lt_succ_self _
  · rw [List.map_append, List.nodup_append_comm]
    simp only [List.map_cons, List.map_nil, List.singleton_append,
      List.nodup_cons]
    constructor
    · intro hmem
      obtain ⟨y, hy, hyid⟩ := List.mem_map.mp hmem
      exact absurd hyid (Nat.ne_of_gt (hb y hy)).symm
    · exact hn

theorem regInv_create (s : RegState) (cid cc dc : Nat) (d : Bool)
    (h : RegInv s) : RegInv (create_variation s cid cc dc d).1 := by
  obtain ⟨hb, hn, hd⟩ := h
  unfold create_variation
  split
  · exact ⟨hb, hn, hd⟩
  split
  · exact ⟨hb, hn, hd⟩
  split
  · exact ⟨hb, hn, hd⟩
  obtain ⟨hb1, hn1⟩ := insert_bound_nodup s cid cc dc d hb hn
  have hd1 : ∀ c, c ≠ cid →
      countDefaults c (s.combos ++ [Combo.mk s.nextId cid cc dc d]) ≤ 1 := by
    intro c hc
    rw [countDefaults_append]
    have : ((Combo.mk s.nextId cid cc dc d).carcass_id == c) = false := by
      simpa using fun hh => absurd hh.symm hc
    simp [this]
    exact hd c
  cases d with
  | false =>
    simp only [Bool.false_eq_true, if_false]
    refine ⟨hb1, hn1, ?_⟩
    intro c
    rw [countDefaults_append]
    simp
    exact hd c
  | true =>
    simp only [if_true]
    exact regInv_set_default_core
      (RegState.mk s.carcasses s.carcassColors s.designColors
        (s.combos ++ [Combo.mk s.nextId cid cc dc true]) (s.nextId + 1))
      cid s.nextId hb1 hn1 (fun c hc => hd1 c hc)

theorem regInv_set_default_route (s : RegState) (cid vid : Nat)
    (h : RegInv s) : RegInv (set_default_variation s cid vid).1 := by
  obtain ⟨hb, hn, hd⟩ := h
  unfold set_default_variation
  cases hf : s.combos.find? (fun c => c.id = vid) with
  | none => exact ⟨hb, hn, hd⟩
  | some v =>
    simp only
    split
    · exact ⟨hb, hn, hd⟩
    · exact regInv_set_default_core s cid vid hb hn (fun c _ => hd c)

theorem regInv_run (ops : List RegOp) (s : RegState) (h : RegInv s) :
    RegInv (runRegOps s ops) := by
  induction ops generalizing s with
  | nil => exact h
  | cons op ops ih =>
    apply ih
    cases op with
    | register c cc dc d => exact regInv_create s c cc dc d h
    | setDefault c v => exact regInv_set_default_route s c v h

/-! ## Claim C2: default-flag uniqueness, and claim C3: duplicates -/

/-- C2: starting from an empty variation set, any sequence of register
and set-default route calls leaves every cabinet with exactly zero or
one variation carrying `is_default`. -/
theorem default_flag_zero_or_one (cars ccs dcs : List Nat)
    (ops : List RegOp) (c : Nat) :
    countDefaults c (runRegOps (initRegState cars ccs dcs) ops).combos = 0 ∨
    countDefaults c (runRegOps (initRegState cars ccs dcs) ops).combos = 1 := by
  have h := (regInv_run ops (initRegState cars ccs dcs)
    (regInv_init cars ccs dcs)).2.2 c
  omega

theorem any_map_eq {f : Combo → Combo} {p : Combo → Bool}
    (l : List Combo) (h : ∀ x ∈ l, p (f x) = p x) :
    (l.map f).any p = l.any p := by
  induction l with
  | nil => rfl
  | cons a l ih =>
    have ha := h a (List.mem_cons_self a l)
    have ih2 := ih (fun x hx => h x (List.mem_cons_of_mem a hx))
    simp [ha, ih2]

theorem create_preserves_catalogs (s : RegState) (cid cc dc : Nat)
    (d : Bool) :
    (create_variation s cid cc dc d).1.carcasses = s.carcasses ∧
    (create_variation s cid cc dc d).1.carcassColors = s.carcassColors ∧
    (create_variation s cid cc dc d).1.designColors = s.designColors := by
  unfold create_variation
  split
  · exact ⟨rfl, rfl, rfl⟩
  split
  · exact ⟨rfl, rfl, rfl⟩
  split
  · exact ⟨rfl, rfl, rfl⟩
  split <;> exact ⟨rfl, rfl, rfl⟩

theorem create_success_snd (s : RegState) (cid cc dc : Nat) (d : Bool)
    (hcar : cid ∈ s.carcasses)
    (hdup : ¬ ∃ x ∈ s.combos, x.carcass_id = cid ∧
      x.carcass_color_id = cc ∧ x.design_color_id = dc)
    (hcc : cc ∈ s.carcassColors) (hdc : dc ∈ s.designColors) :
    (create_variation s cid cc dc d).2 = RegResult.created s.nextId := by
  unfold create_variation
  rw [if_neg (by simpa using hcar), if_neg (by simpa using hdup),
    if_neg (by simp; exact ⟨hcc, hdc⟩)]

theorem create_success_nextId (s : RegState) (cid cc dc : Nat) (d : Bool)
    (hcar : cid ∈ s.carcasses)
    (hdup : ¬ ∃ x ∈ s.combos, x.carcass_id = cid ∧
      x.carcass_color_id = cc ∧ x.design_color_id = dc)
    (hcc : cc ∈ s.carcassColors) (hdc : dc ∈ s.designColors) :
    (create_variation s cid cc dc d).1.nextId = s.nextId + 1 := by
  unfold create_variation
  rw [if_neg (by simpa using hcar), if_neg (by simpa using hdup),
    if_neg (by simp; exact ⟨hcc, hdc⟩)]
  cases d <;> rfl

theorem create_success_any (s : RegState) (cid cc dc : Nat) (d : Bool)
    (q : Combo → Bool)
    (hcar : cid ∈ s.carcasses)
    (hdup : ¬ ∃ x ∈ s.combos, x.carcass_id = cid ∧
      x.carcass_color_id = cc ∧ x.design_color_id = dc)
    (hcc : cc ∈ s.carcassColors) (hdc : dc ∈ s.designColors)
    (hq : ∀ (x : Combo) (b : Bool),
      q (Combo.mk x.id x.carcass_id x.carcass_color_id x.design_color_id b) = q x) :
    (create_variation s cid cc dc d).1.combos.any q =
      (s.combos.any q || q (Combo.mk s.nextId cid cc dc d)) := by
  unfold create_variation
  rw [if_neg (by simpa using hcar), if_neg (by simpa using hdup),
    if_neg (by simp; exact ⟨hcc, hdc⟩)]
  cases d with
  | false => simp
  | true =>
    show ((_ ++ [_]).map _).any q = _
    rw [any_map_eq]
    · simp
    · intro x _
      by_cases hx : x.carcass_id = cid
      · simp only [hx, if_true]
        rw [← hx]
        exact hq x _
      · simp [hx]

/-- C3: registering an already-registered (cabinet, cabinet-color,
design-color) triple returns the duplicate error before inserting
anything, leaving the store unchanged, while registering (C,a,b) and
then (C,b,a) with distinct colors both succeed, the duplicate check
treating the two color roles as distinct. -/
theorem register_duplicate_spec :
    (∀ (s : RegState) (cid cc dc : Nat) (d : Bool), cid ∈ s.carcasses →
      (s.combos.any fun c => c.carcass_id = cid ∧
        c.carcass_color_id = cc ∧ c.design_color_id = dc) = true →
      create_variation s cid cc dc d = (s, RegResult.duplicate)) ∧
    (∀ (s : RegState) (cid a b : Nat) (d1 d2 : Bool), cid ∈ s.carcasses →
      a ∈ s.carcassColors → b ∈ s.carcassColors →
      a ∈ s.designColors → b ∈ s.designColors → a ≠ b →
      (s.combos.any fun c => c.carcass_id = cid ∧
        c.carcass_color_id = a ∧ c.design_color_id = b) = false →
      (s.combos.any fun c => c.carcass_id = cid ∧
        c.carcass_color_id = b ∧ c.design_color_id = a) = false →
      (create_variation s cid a b d1).2 = RegResult.created s.nextId ∧
      (create_variation (create_variation s cid a b d1).1 cid b a d2).2 =
        RegResult.created (s.nextId + 1)) := by
  constructor
  · intro s cid cc dc d hmem hdup
    unfold create_variation
    rw [if_neg (by simpa using hmem), if_pos (by simpa using hdup)]
  · intro s cid a b d1 d2 hmem hacc hbcc hadc hbdc hab hdup1 hdup2
    have hdup1' : ¬ ∃ x ∈ s.combos, x.carcass_id = cid ∧
        x.carcass_color_id = a ∧ x.design_color_id = b := by
      intro hex
      obtain ⟨x, hx, hP⟩ := hex
      have hT : (s.combos.any fun c => c.carcass_id = cid ∧
          c.carcass_color_id = a ∧ c.design_color_id = b) = true :=
        List.any_eq_true.mpr ⟨x, hx, by simpa using hP⟩
      rw [hdup1] at hT
      exact Bool.false_ne_true hT
    refine ⟨create_success_snd s cid a b d1 hmem hdup1' hacc hbdc, ?_⟩
    obtain ⟨e1, e2, e3⟩ := create_preserves_catalogs s cid a b d1
    have hq : ∀ (x : Combo) (v : Bool),
        (fun c => decide (c.carcass_id = cid ∧ c.carcass_color_id = b ∧
          c.design_color_id = a))
          (Combo.mk x.id x.carcass_id x.carcass_color_id x.design_color_id v) =
        (fun c => decide (c.carcass_id = cid ∧ c.carcass_color_id = b ∧
          c.design_color_id = a)) x := by
      intro x v
      rfl
    have hany2 : ((create_variation s cid a b d1).1.combos.any fun c =>
        c.carcass_id = cid ∧ c.carcass_color_id = b ∧
          c.design_color_id = a) = false := by
      rw [create_success_any s cid a b d1 _ hmem hdup1' hacc hbdc hq, hdup2]
      simp [hab]
    have hdup2' : ¬ ∃ x ∈ (create_variation s cid a b d1).1.combos,
        x.carcass_id = cid ∧ x.carcass_color_id = b ∧
          x.design_color_id = a := by
      intro hex
      obtain ⟨x, hx, hP⟩ := hex
      have hT : ((create_variation s cid a b d1).1.combos.any fun c =>
          c.carcass_id = cid ∧ c.carcass_color_id = b ∧
            c.design_color_id = a) = true :=
        List.any_eq_true.mpr ⟨x, hx, by simpa using hP⟩
      rw [hany2] at hT
      exact Bool.false_ne_true hT
    have hres := create_success_snd (create_variation s cid a b d1).1 cid b a d2
      (e1 ▸ hmem) (hdup2') (e2 ▸ hbcc) (e3 ▸ hadc)
    rw [hres, create_success_nextId s cid a b d1 hmem hdup1' hacc hbdc]

/-- Witness for C3: in a store with cabinet 1 and colors 2 and 3 where
the triple (1,2,3) is registered, re-registering it returns the
duplicate error unchanged-state pair; from the empty store the two
mirror-image triples both register. -/
theorem register_duplicate_spec_witness :
    create_variation
      (RegState.mk [1] [2, 3] [2, 3] [Combo.mk 0 1 2 3 false] 1) 1 2 3 false =
      (RegState.mk [1] [2, 3] [2, 3] [Combo.mk 0 1 2 3 false] 1,
        RegResult.duplicate) ∧
    (create_variation (RegState.mk [1] [2, 3] [2, 3] [] 0) 1 2 3 false).2 =
      RegResult.created 0 ∧
    (create_variation
      (create_variation (RegState.mk [1] [2, 3] [2, 3] [] 0) 1 2 3 false).1
      1 3 2 false).2 = RegResult.created 1 := by
  refine ⟨?_, ?_⟩
  · exact register_duplicate_spec.1
      (RegState.mk [1] [2, 3] [2, 3] [Combo.mk 0 1 2 3 false] 1) 1 2 3 false
      (by decide) (by decide)
  · exact register_duplicate_spec.2
      (RegState.mk [1] [2, 3] [2, 3] [] 0) 1 2 3 false false
      (by decide) (by decide) (by decide) (by decide) (by decide)
      (by decide) (by decide) (by decide)

/-! ## Claim C1 and claim C10: the exact-bundle matcher -/

/-- C1: for every bundle-matching query, equality on machine, cabinet,
cabinet-color and design-color ids is mandatory; an omitted fridge or
terminal matches only bundles whose stored field is null and a supplied
id only bundles storing exactly that id (hence the stored and queried
optional fields agree outright, and no match crosses the null/non-null
boundary); a supplied variation id is one additional equality filter. -/
theorem preview_filter_semantics (q : PreviewQuery) (b : Bundle) :
    (matchesQuery q b = true ↔
      (b.coffee_machine_id = q.coffee_machine_id ∧
       b.carcass_id = q.carcass_id ∧
       b.carcass_color_id = q.carcass_color_id ∧
       b.design_color_id = q.design_color_id ∧
       b.fridge_id = q.fridge_id ∧
       b.terminal_id = q.terminal_id ∧
       (∀ c, q.carcass_design_combination_id = Option.some c →
          b.carcass_design_combination_id = Option.some c))) ∧
    (matchesQuery q b = true →
      (q.fridge_id.isSome ↔ b.fridge_id.isSome) ∧
      (q.terminal_id.isSome ↔ b.terminal_id.isSome)) := by
  constructor
  · unfold matchesQuery
    cases hf : q.fridge_id <;> cases ht : q.terminal_id <;>
      cases hc : q.carcass_design_combination_id <;>
      simp_all <;> tauto
  · intro h
    unfold matchesQuery at h
    cases hf : q.fridge_id <;> cases ht : q.terminal_id <;>
      cases hc : q.carcass_design_combination_id <;> simp_all

/-- Witness for C1: the spec's own example bundle (machine 1, no fridge,
cabinet 2, cabinet-color 3, design-color 4, no terminal) is matched by
the query with fridge and terminal omitted, and not by the same query
with fridge 5 supplied. -/
theorem preview_filter_semantics_witness :
    matchesQuery
      (PreviewQuery.mk 1 Option.none 2 3 4 Option.none Option.none)
      (Bundle.mk 10 1 Option.none 2 3 4 Option.none Option.none
        Option.none Option.none true true) = true ∧
    matchesQuery
      (PreviewQuery.mk 1 (Option.some 5) 2 3 4 Option.none Option.none)
      (Bundle.mk 10 1 Option.none 2 3 4 Option.none Option.none
        Option.none Option.none true true) = false := by
  constructor
  · exact (preview_filter_semantics
      (PreviewQuery.mk 1 Option.none 2 3 4 Option.none Option.none)
      (Bundle.mk 10 1 Option.none 2 3 4 Option.none Option.none
        Option.none Option.none true true)).1.mpr (by decide)
  · decide

/-- C10: the matcher never inspects `is_available` or `show_on_site`:
flipping them changes no query's verdict, any stored matching row is
reported as an exact bundle whatever its flags, while the public listing
does exclude rows with `show_on_site` false. -/
theorem preview_ignores_flags (q : PreviewQuery) (b : Bundle)
    (store : List Bundle) (avail shw : Bool) :
    (matchesQuery q
      (Bundle.mk b.id b.coffee_machine_id b.fridge_id b.carcass_id
        b.carcass_color_id b.design_color_id b.terminal_id
        b.carcass_design_combination_id b.custom_price b.ozon_url
        avail shw) = matchesQuery q b) ∧
    (b ∈ store → matchesQuery q b = true →
      (preview_bundle store q).is_exact_bundle = true) ∧
    (b.show_on_site = false → b ∉ list_bundles store) := by
  refine ⟨rfl, ?_, ?_⟩
  · intro hb hm
    unfold preview_bundle
    cases hfind : store.find? (fun x => matchesQuery q x) with
    | none =>
      exact absurd hm (by simpa using List.find?_eq_none.mp hfind b hb)
    | some x => rfl
  · intro hshow hmem
    have := (List.mem_filter.mp hmem).2
    simp [hshow] at this

/-- Witness for C10: a bundle hidden from the site and marked
unavailable is still returned as an exact preview match, yet absent from
the public listing. -/
theorem preview_ignores_flags_witness :
    (preview_bundle
      [Bundle.mk 10 1 Option.none 2 3 4 Option.none Option.none
        Option.none Option.none false false]
      (PreviewQuery.mk 1 Option.none 2 3 4 Option.none
        Option.none)).is_exact_bundle = true ∧
    (Bundle.mk 10 1 Option.none 2 3 4 Option.none Option.none
        Option.none Option.none false false) ∉
      list_bundles
        [Bundle.mk 10 1 Option.none 2 3 4 Option.none Option.none
          Option.none Option.none false false] := by
  constructor
  · exact (preview_ignores_flags
      (PreviewQuery.mk 1 Option.none 2 3 4 Option.none Option.none)
      (Bundle.mk 10 1 Option.none 2 3 4 Option.none Option.none
        Option.none Option.none false false)
      [Bundle.mk 10 1 Option.none 2 3 4 Option.none Option.none
        Option.none Option.none false false]
      false false).2.1 (by decide) (by decide)
  · exact (preview_ignores_flags
      (PreviewQuery.mk 1 Option.none 2 3 4 Option.none Option.none)
      (Bundle.mk 10 1 Option.none 2 3 4 Option.none Option.none
        Option.none Option.none false false)
      [Bundle.mk 10 1 Option.none 2 3 4 Option.none Option.none
        Option.none Option.none false false]
      false false).2.2 (by decide)

/-! ## Claim C4: bulk import aborts wholesale on conversion errors -/

theorem convertRow_error (ts : TableSchema) (row : List (String × PyVal))
    (h : ∃ kv ∈ row, ∃ ct, ts.colType kv.1 = Option.some ct ∧
      ∃ e, convert_value ct kv.2 = Except.error e) :
    ∃ e, convertRow ts row = Except.error e := by
  induction row with
  | nil => simp at h
  | cons kv rest ih =>
    obtain ⟨k, v⟩ := kv
    obtain ⟨kv0, hkv0, ct0, hct0, e0, he0⟩ := h
    rcases List.mem_cons.mp hkv0 with hkv0 | hkv0
    · subst hkv0
      refine ⟨e0, ?_⟩
      simp only [convertRow, hct0, he0]
    · cases hc : ts.colType k with
      | none =>
        obtain ⟨e, he⟩ := ih ⟨kv0, hkv0, ct0, hct0, e0, he0⟩
        exact ⟨e, by simp only [convertRow, hc, he]⟩
      | some ct =>
        cases hcv : convert_value ct v with
        | error e => exact ⟨e, by simp only [convertRow, hc, hcv]⟩
        | ok cv =>
          obtain ⟨e, he⟩ := ih ⟨kv0, hkv0, ct0, hct0, e0, he0⟩
          exact ⟨e, by simp only [convertRow, hc, hcv, he]⟩

theorem importRow_error (ts : TableSchema) (w : Store)
    (row : List (String × PyVal))
    (h : ∃ kv ∈ row, ∃ ct, ts.colType kv.1 = Option.some ct ∧
      ∃ e, convert_value ct kv.2 = Except.error e) :
    ∃ e, importRow ts w row = Except.error e := by
  obtain ⟨e, he⟩ := convertRow_error ts row h
  exact ⟨e, by simp only [importRow, he]⟩

theorem importRows_error (ts : TableSchema)
    (rows : List (List (String × PyVal))) (w : Store)
    (h : ∃ row ∈ rows, ∃ kv ∈ row, ∃ ct, ts.colType kv.1 = Option.some ct ∧
      ∃ e, convert_value ct kv.2 = Except.error e) :
    ∃ e, importRows ts w rows = Except.error e := by
  induction rows generalizing w with
  | nil => simp at h
  | cons r rs ih =>
    obtain ⟨row, hrow, hfail⟩ := h
    rcases List.mem_cons.mp hrow with hrow | hrow
    · subst hrow
      obtain ⟨e, he⟩ := importRow_error ts w row hfail
      exact ⟨e, by simp only [importRows, he]⟩
    · cases hr : importRow ts w r with
      | error e => exact ⟨e, by simp only [importRows, hr]⟩
      | ok w2 =>
        obtain ⟨e, he⟩ := ih w2 ⟨row, hrow, hfail⟩
        exact ⟨e, by simp only [importRows, hr, he]⟩

/-- C4: when converting any cell of any imported row to its column's
type raises, the whole import errors out and the committed store is
returned exactly as it was: no row of the batch is applied. -/
theorem import_all_or_nothing (ts : TableSchema) (store : Store)
    (rows : List (List (String × PyVal)))
    (h : ∃ row ∈ rows, ∃ kv ∈ row, ∃ ct, ts.colType kv.1 = Option.some ct ∧
      ∃ e, convert_value ct kv.2 = Except.error e) :
    ∃ e, importRows ts store rows = Except.error e ∧
      handle_import ts store rows = (store, Option.some e) := by
  obtain ⟨e, he⟩ := importRows_error ts rows store h
  exact ⟨e, he, by simp only [handle_import, he]⟩

/-- Witness for C4: a two-row import whose second row holds an
unparsable integer cell aborts, leaving the pre-import store (with its
old field values) as the committed result. -/
theorem import_all_or_nothing_witness :
    ∃ e, importRows
        (TableSchema.mk [("id", ColType.intCol), ("name", ColType.strCol),
          ("price", ColType.intCol)] "id")
        [Rec.mk (Option.some 1) [("name", PyVal.str "Old"), ("price", PyVal.int 5)]]
        [[("id", PyVal.int 1), ("name", PyVal.str "New")],
          [("price", PyVal.str "abc")]] = Except.error e ∧
      handle_import
        (TableSchema.mk [("id", ColType.intCol), ("name", ColType.strCol),
          ("price", ColType.intCol)] "id")
        [Rec.mk (Option.some 1) [("name", PyVal.str "Old"), ("price", PyVal.int 5)]]
        [[("id", PyVal.int 1), ("name", PyVal.str "New")],
          [("price", PyVal.str "abc")]] =
        ([Rec.mk (Option.some 1) [("name", PyVal.str "Old"),
          ("price", PyVal.int 5)]], Option.some e) :=
  import_all_or_nothing
    (TableSchema.mk [("id", ColType.intCol), ("name", ColType.strCol),
      ("price", ColType.intCol)] "id")
    [Rec.mk (Option.some 1) [("name", PyVal.str "Old"), ("price", PyVal.int 5)]]
    [[("id", PyVal.int 1), ("name", PyVal.str "New")],
      [("price", PyVal.str "abc")]]
    ⟨[("price", PyVal.str "abc")], by decide,
      ("price", PyVal.str "abc"), by decide,
      ColType.intCol, by decide, ConvError.valueError, by decide⟩

/-! ## Claim C8: text-column conversion of null cells -/

/-- Counterexample for C8: a null cell aimed at a text column is not
converted to empty text — the early null return hands it back as null
before the text rule can run. -/
theorem convert_value_null_text_cx :
    convert_value ColType.strCol PyVal.none ≠ Except.ok (PyVal.str "") := by
  decide

/-- C8 (amended): a null cell passes through unchanged for a text
column (as for every column type), and every non-null cell aimed at a
text column converts to its string form. -/
theorem convert_value_text_amended (v : PyVal) (h : v ≠ PyVal.none) :
    convert_value ColType.strCol v = Except.ok (PyVal.str (pyStr v)) ∧
    convert_value ColType.strCol PyVal.none = Except.ok PyVal.none := by
  refine ⟨?_, by decide⟩
  cases v with
  | none => exact absurd rfl h
  | str s => rfl
  | int n => simp [convert_value]
  | float q => simp [convert_value]
  | bool b => simp [convert_value]
  | dt iso => simp [convert_value]

/-- Witness for C8: an integer cell under a text column becomes its
decimal string while a null cell stays null. -/
theorem convert_value_text_amended_witness :
    PyVal.int 7 ≠ PyVal.none ∧
    (convert_value ColType.strCol (PyVal.int 7) =
        Except.ok (PyVal.str (pyStr (PyVal.int 7))) ∧
      convert_value ColType.strCol PyVal.none = Except.ok PyVal.none) :=
  ⟨by decide, convert_value_text_amended (PyVal.int 7) (by decide)⟩

/-! ## Claim C5: spreadsheet header mapping -/

theorem dictOfPairs_eq_self {α : Type} (l : List (String × α))
    (h : (l.map Prod.fst).Nodup) : dictOfPairs l = l := by
  suffices hgen : ∀ (l acc : List (String × α)),
      (∀ k ∈ acc.map Prod.fst, k ∉ l.map Prod.fst) →
      (l.map Prod.fst).Nodup →
      l.foldl (fun acc kv =>
        if acc.any (fun p => p.1 = kv.1) then
          acc.map (fun p => if p.1 = kv.1 then (p.1, kv.2) else p)
        else acc ++ [kv]) acc = acc ++ l by
    simpa [dictOfPairs] using hgen l [] (by simp) h
  intro l
  induction l with
  | nil =>
    intro acc _ _
    simp
  | cons kv rest ih =>
    intro acc hdisj hnodup
    simp only [List.map_cons, List.nodup_cons] at hnodup
    have hnot : acc.any (fun p => p.1 = kv.1) = false := by
      rw [List.any_eq_false]
      intro p hp
      simp only [decide_eq_true_eq]
      intro heq
      exact hdisj p.1 (List.mem_map_of_mem Prod.fst hp)
        (by simp [heq])
    simp only [List.foldl_cons, hnot, Bool.false_eq_true, if_false]
    rw [ih (acc ++ [kv]) ?_ hnodup.2]
    · simp
    · intro k hk
      rw [List.map_append] at hk
      rcases List.mem_append.mp hk with hk | hk
      · intro hmem
        exact hdisj k hk (by simp [hmem])
      · simp at hk
        subst hk
        exact hnodup.1

theorem zip_keys_sublist {α : Type} (hs : List String) (vs : List α) :
    ((hs.zip vs).map Prod.fst).Sublist hs := by
  induction hs generalizing vs with
  | nil => simp
  | cons a hs ih =>
    cases vs with
    | nil => simp
    | cons b vs =>
      simpa using List.Sublist.cons₂ a (ih vs)

theorem dictGet_zip_nodup {α : Type} (hs : List String) (vs : List α)
    (h : hs.Nodup) (k : Nat) (hk1 : k < hs.length) (hk2 : k < vs.length) :
    dictGet (hs.zip vs) (hs.get ⟨k, hk1⟩) = Option.some (vs.get ⟨k, hk2⟩) := by
  induction hs generalizing vs k with
  | nil => simp at hk1
  | cons a hs ih =>
    cases vs with
    | nil => simp at hk2
    | cons b vs =>
      simp only [List.nodup_cons] at h
      cases k with
      | zero => simp [dictGet]
      | succ k =>
        have hk1s : k < hs.length := Nat.lt_of_succ_lt_succ hk1
        have hk2s : k < vs.length := Nat.lt_of_succ_lt_succ hk2
        have hne : ¬(a = hs.get ⟨k, hk1s⟩) := by
          intro heq
          exact h.1 (heq ▸ List.get_mem hs k hk1s)
        have hdec : (decide (a = hs.get ⟨k, hk1s⟩)) = false := by
          simpa using hne
        show dictGet ((a, b) :: hs.zip vs) (hs.get ⟨k, hk1s⟩) = _
        simp only [dictGet, List.find?_cons, hdec]
        exact ih vs h.2 k hk1s hk2s

/-- Counterexample for C5: with headers ["a", "", "b"], the empty header
is dropped but the data cells shift — header "b" receives the value of
the middle (dropped) column, not the value of its own column. -/
theorem parse_xlsx_shift_cx :
    parse_xlsx [[PyVal.str "a", PyVal.str "", PyVal.str "b"],
        [PyVal.int 1, PyVal.int 2, PyVal.int 3]] =
      [[("a", PyVal.int 1), ("b", PyVal.int 2)]] ∧
    parse_xlsx [[PyVal.str "a", PyVal.str "", PyVal.str "b"],
        [PyVal.int 1, PyVal.int 2, PyVal.int 3]] ≠
      [[("a", PyVal.int 1), ("b", PyVal.int 3)]] := by
  constructor
  · rfl
  · decide

/-- C5 (amended): headers are the trimmed first-row cells with
empty-after-trim entries dropped; each data row's cells are then paired
with the retained headers positionally (so a retained header standing
after a dropped one takes the value of an earlier column, not of its own
column); every data row whose mapped values are all null or empty text
is skipped, so each emitted row has some non-empty mapped value. -/
theorem parse_xlsx_amended :
    (∀ (hr : List PyVal) (drs : List (List PyVal)) (dr : List PyVal),
      dr ∈ drs →
      (dictOfPairs ((retainedHeaders hr).zip dr)).any
        (fun p => p.2 ≠ PyVal.none ∧ p.2 ≠ PyVal.str "") = true →
      dictOfPairs ((retainedHeaders hr).zip dr) ∈ parse_xlsx (hr :: drs)) ∧
    (∀ (hr : List PyVal) (dr : List PyVal) (k : Nat)
      (hk1 : k < (retainedHeaders hr).length) (hk2 : k < dr.length),
      (retainedHeaders hr).Nodup →
      dictGet (dictOfPairs ((retainedHeaders hr).zip dr))
        ((retainedHeaders hr).get ⟨k, hk1⟩) =
        Option.some (dr.get ⟨k, hk2⟩)) ∧
    (∀ (sheet : List (List PyVal)) (row : List (String × PyVal)),
      row ∈ parse_xlsx sheet →
      row.any (fun p => p.2 ≠ PyVal.none ∧ p.2 ≠ PyVal.str "") = true) := by
  refine ⟨?_, ?_, ?_⟩
  · intro hr drs dr hdr hne
    have hret : retainedHeaders hr ≠ [] := by
      intro h0
      rw [h0] at hne
      simp [dictOfPairs] at hne
    show dictOfPairs _ ∈ parse_xlsx (hr :: drs)
    simp only [parse_xlsx]
    rw [if_neg hret]
    exact List.mem_filterMap.mpr ⟨dr, hdr, by simp only [hne, if_true]⟩
  · intro hr dr k hk1 hk2 hnodup
    have hsub := zip_keys_sublist (retainedHeaders hr) dr
    rw [dictOfPairs_eq_self _ (hnodup.sublist hsub)]
    exact dictGet_zip_nodup (retainedHeaders hr) dr hnodup k hk1 hk2
  · intro sheet row hrow
    cases sheet with
    | nil => simp [parse_xlsx] at hrow
    | cons hr drs =>
      simp only [parse_xlsx] at hrow
      by_cases hret : retainedHeaders hr = []
      · rw [if_pos hret] at hrow
        simp at hrow
      · rw [if_neg hret] at hrow
        obtain ⟨dr, _, hf⟩ := List.mem_filterMap.mp hrow
        by_cases hc : (dictOfPairs ((retainedHeaders hr).zip dr)).any
            (fun p => p.2 ≠ PyVal.none ∧ p.2 ≠ PyVal.str "") = true
        · simp only [hc, if_true, Option.some.injEq] at hf
          rw [← hf]
          exact hc
        · simp only [hc, if_false] at hf
          rw [if_neg (by simp [hc])] at hf
          exact absurd hf (Option.noConfusion)

/-- Witness for C5 (amended): with headers ["x", "y"] and row [7, null],
the emitted mapping pairs x with 7 and y with null positionally, the row
is kept because x's value is non-empty, and header y (index 1) looks up
to the row's second cell. -/
theorem parse_xlsx_amended_witness :
    dictOfPairs ((retainedHeaders [PyVal.str "x", PyVal.str "y"]).zip
        [PyVal.int 7, PyVal.none]) ∈
      parse_xlsx [[PyVal.str "x", PyVal.str "y"],
        [PyVal.int 7, PyVal.none]] ∧
    dictGet (dictOfPairs ((retainedHeaders [PyVal.str "x", PyVal.str "y"]).zip
        [PyVal.int 7, PyVal.none]))
      ((retainedHeaders [PyVal.str "x", PyVal.str "y"]).get
        ⟨1, by decide⟩) = Option.some PyVal.none := by
  constructor
  · exact parse_xlsx_amended.1 [PyVal.str "x", PyVal.str "y"]
      [[PyVal.int 7, PyVal.none]] [PyVal.int 7, PyVal.none]
      (by decide) (by decide)
  · exact parse_xlsx_amended.2.1 [PyVal.str "x", PyVal.str "y"]
      [PyVal.int 7, PyVal.none] 1 (by decide) (by decide) (by decide)

/-! ## Claim C6: defensive gallery decoding -/

/-- Counterexample for C6: the stored gallery value "5" decodes to a
JSON number, and `parse_gallery` then raises a TypeError to the caller
instead of yielding an empty list. -/
theorem parse_gallery_raises_cx :
    parse_gallery (GalleryValue.str "5") = Except.error () := by rfl

/-- C6 (amended): an absent value, a blank string or malformed JSON
decodes to the empty list; a decoded JSON array yields its non-empty
string elements; but `parse_gallery` raises a TypeError exactly when the
payload decodes to a JSON scalar (number, boolean or null), while the
model-level `gallery_urls` is fully defensive: any result other than
`[]` can only come from a decoded JSON array. -/
theorem parse_gallery_amended :
    (parse_gallery GalleryValue.none = Except.ok []) ∧
    (∀ s : String, pyStrip s = "" →
      parse_gallery (GalleryValue.str s) = Except.ok []) ∧
    (∀ s : String, pyStrip s ≠ "" → json_loads (pyStrip s) = Option.none →
      parse_gallery (GalleryValue.str s) = Except.ok []) ∧
    (∀ (s : String) (j : PyJson), pyStrip s ≠ "" →
      json_loads (pyStrip s) = Option.some j →
      ((parse_gallery (GalleryValue.str s) = Except.error ()) ↔
        j.scalar = true)) ∧
    (∀ (s : String) (xs : List PyJson), pyStrip s ≠ "" →
      json_loads (pyStrip s) = Option.some (PyJson.arr xs) →
      parse_gallery (GalleryValue.str s) = Except.ok (xs.filterMap (fun j =>
        match j with
        | PyJson.str t => if t = "" then Option.none else Option.some t
        | _ => Option.none))) ∧
    (∀ st : Option String, gallery_urls st = [] ∨
      ∃ xs, json_loads (galleryRaw st) = Option.some (PyJson.arr xs)) := by
  refine ⟨rfl, ?_, ?_, ?_, ?_, ?_⟩
  · intro s h
    simp [parse_gallery, h]
  · intro s hne hl
    simp [parse_gallery, hne, hl]
  · intro s j hne hl
    simp only [parse_gallery, if_neg hne, hl]
    cases j <;> simp [iterStrItems, PyJson.scalar]
  · intro s xs hne hl
    simp [parse_gallery, hne, hl, iterStrItems]
  · intro st
    unfold gallery_urls
    cases hl : json_loads (galleryRaw st) with
    | none => exact Or.inl rfl
    | some j =>
      cases j with
      | arr xs => exact Or.inr ⟨xs, rfl⟩
      | null => exact Or.inl rfl
      | bool b => exact Or.inl rfl
      | num r => exact Or.inl rfl
      | str t => exact Or.inl rfl
      | obj kvs => exact Or.inl rfl

/-- Witness for C6 (amended): the stored value decoding to the array
["a.jpg", 3, ""] projects to the single non-empty string element. -/
theorem parse_gallery_amended_witness :
    parse_gallery (GalleryValue.str "[\"a.jpg\", 3, \"\"]") =
      Except.ok ["a.jpg"] :=
  parse_gallery_amended.2.2.2.2.1 "[\"a.jpg\", 3, \"\"]"
    [PyJson.str "a.jpg", PyJson.num "3", PyJson.str ""]
    (by decide) (by rfl)

/-! ## Claim C7: denormalized ids copied from the attached variation -/

theorem dictGet_mapReplace_self {α : Type} (l : List (String × α))
    (k : String) (v : α)
    (hany : l.any (fun p => p.1 = k) = true) :
    dictGet (l.map (fun p => if p.1 = k then (p.1, v) else p)) k =
      Option.some v := by
  induction l with
  | nil => simp at hany
  | cons p l ih =>
    rw [List.map_cons]
    by_cases hp : p.1 = k
    · rw [if_pos hp]
      unfold dictGet
      rw [List.find?_cons_of_pos _ (by simpa using hp)]
      rfl
    · rw [if_neg hp]
      unfold dictGet
      rw [List.find?_cons_of_neg _ (by simpa using hp)]
      have hany2 : l.any (fun p => p.1 = k) = true := by
        simp only [List.any_cons, Bool.or_eq_true, decide_eq_true_eq] at hany
        rcases hany with hany | hany
        · exact absurd hany hp
        · simpa using hany
      exact ih hany2

theorem dictGet_appendSingle_self {α : Type} (l : List (String × α))
    (k : String) (v : α)
    (hany : l.any (fun p => p.1 = k) = false) :
    dictGet (l ++ [(k, v)]) k = Option.some v := by
  induction l with
  | nil =>
    unfold dictGet
    rw [List.nil_append, List.find?_cons_of_pos _ (by simp)]
    rfl
  | cons p l ih =>
    simp only [List.any_cons, Bool.or_eq_false_iff,
      decide_eq_false_iff_not] at hany
    rw [List.cons_append]
    unfold dictGet
    rw [List.find?_cons_of_neg _ (by simpa using hany.1)]
    exact ih (by simpa using hany.2)

theorem dictGet_dictSet_self {α : Type} (l : List (String × α))
    (k : String) (v : α) : dictGet (dictSet l k v) k = Option.some v := by
  unfold dictSet
  split
  · next hany => exact dictGet_mapReplace_self l k v hany
  · next hany =>
    exact dictGet_appendSingle_self l k v (Bool.eq_false_iff.mpr hany)

theorem dictGet_mapReplace_ne {α : Type} (l : List (String × α))
    (k k2 : String) (v : α) (hne : k2 ≠ k) :
    dictGet (l.map (fun p => if p.1 = k then (p.1, v) else p)) k2 =
      dictGet l k2 := by
  induction l with
  | nil => rfl
  | cons p l ih =>
    rw [List.map_cons]
    by_cases hpk : p.1 = k
    · have hp2 : ¬p.1 = k2 := fun hh => hne (hh ▸ hpk)
      rw [if_pos hpk]
      unfold dictGet
      rw [List.find?_cons_of_neg _ (by simpa using hp2),
        List.find?_cons_of_neg _ (by simpa using hp2)]
      exact ih
    · rw [if_neg hpk]
      by_cases hp2 : p.1 = k2
      · unfold dictGet
        rw [List.find?_cons_of_pos _ (by simpa using hp2),
          List.find?_cons_of_pos _ (by simpa using hp2)]
      · unfold dictGet
        rw [List.find?_cons_of_neg _ (by simpa using hp2),
          List.find?_cons_of_neg _ (by simpa using hp2)]
        exact ih

theorem dictGet_appendSingle_ne {α : Type} (l : List (String × α))
    (k k2 : String) (v : α) (hne : k2 ≠ k) :
    dictGet (l ++ [(k, v)]) k2 = dictGet l k2 := by
  induction l with
  | nil =>
    unfold dictGet
    rw [List.nil_append,
      List.find?_cons_of_neg _ (by simpa using fun hh => hne hh.symm)]
  | cons p l ih =>
    rw [List.cons_append]
    by_cases hp2 : p.1 = k2
    · unfold dictGet
      rw [List.find?_cons_of_pos _ (by simpa using hp2),
        List.find?_cons_of_pos _ (by simpa using hp2)]
    · unfold dictGet
      rw [List.find?_cons_of_neg _ (by simpa using hp2),
        List.find?_cons_of_neg _ (by simpa using hp2)]
      exact ih

theorem dictGet_dictSet_ne {α : Type} (l : List (String × α))
    (k k2 : String) (v : α) (hne : k2 ≠ k) :
    dictGet (dictSet l k v) k2 = dictGet l k2 := by
  unfold dictSet
  split
  · exact dictGet_mapReplace_ne l k k2 v hne
  · exact dictGet_appendSingle_ne l k k2 v hne

theorem dictGet_filter_ne {α : Type} (l : List (String × α))
    (k k2 : String) (hne : k2 ≠ k) :
    dictGet (l.filter (fun p => p.1 ≠ k)) k2 = dictGet l k2 := by
  induction l with
  | nil => rfl
  | cons p l ih =>
    by_cases hpk : p.1 = k
    · have hp2 : ¬p.1 = k2 := fun hh => hne (hh ▸ hpk)
      rw [List.filter_cons_of_neg (by simpa using hpk)]
      unfold dictGet
      rw [List.find?_cons_of_neg _ (by simpa using hp2)]
      exact ih
    · rw [List.filter_cons_of_pos (by simpa using hpk)]
      by_cases hp2 : p.1 = k2
      · unfold dictGet
        rw [List.find?_cons_of_pos _ (by simpa using hp2),
          List.find?_cons_of_pos _ (by simpa using hp2)]
      · unfold dictGet
        rw [List.find?_cons_of_neg _ (by simpa using hp2),
          List.find?_cons_of_neg _ (by simpa using hp2)]
        exact ih

theorem relFieldStep_shape (attr col : String) (allowEmpty : Bool)
    (refId : FormVal → Option Nat) (modelVal : Option Nat)
    (isc : Bool) (data d2 : List (String × FormVal))
    (h : relFieldStep attr col allowEmpty refId modelVal isc data =
      Except.ok d2) :
    d2 = data.filter (fun p => p.1 ≠ attr) ∨
    ∃ x, d2 = dictSet (data.filter (fun p => p.1 ≠ attr)) col x := by
  simp only [relFieldStep, dictPop] at h
  iterate 8 (all_goals try split at h)
  all_goals first
    | exact Or.inl (Except.ok.inj h).symm
    | exact Or.inr ⟨_, (Except.ok.inj h).symm⟩
    | simp at h

theorem relFieldStep_get_ne (attr col : String) (allowEmpty : Bool)
    (refId : FormVal → Option Nat) (modelVal : Option Nat)
    (isc : Bool) (data d2 : List (String × FormVal))
    (h : relFieldStep attr col allowEmpty refId modelVal isc data =
      Except.ok d2)
    (k2 : String) (h1 : k2 ≠ attr) (h2 : k2 ≠ col) :
    dictGet d2 k2 = dictGet data k2 := by
  rcases relFieldStep_shape attr col allowEmpty refId modelVal isc data d2 h
    with hsh | ⟨x, hsh⟩
  · rw [hsh, dictGet_filter_ne data attr k2 h1]
  · rw [hsh, dictGet_dictSet_ne _ col k2 x h2,
      dictGet_filter_ne data attr k2 h1]

/-- C7: whenever `on_model_change` resolves an attached variation and
completes, the data dict it hands to the superclass carries the
variation's id and its cabinet, cabinet-color and design-color ids —
whatever the caller had put under those keys beforehand, they are
overwritten from the variation, so the saved bundle's denormalized ids
equal the attached variation's. -/
theorem on_model_change_denormalizes (dbCombos : List Combo)
    (model : Bundle) (isc : Bool) (data d2 : List (String × FormVal))
    (combo : Combo)
    (hres : resolveCombo dbCombos
      ((dictGet data "carcass_design_combination").getD FormVal.none) =
      Except.ok (Option.some combo))
    (h : on_model_change dbCombos model isc data = Except.ok d2) :
    dictGet d2 "carcass_id" =
      Option.some (FormVal.int (combo.carcass_id : Int)) ∧
    dictGet d2 "carcass_color_id" =
      Option.some (FormVal.int (combo.carcass_color_id : Int)) ∧
    dictGet d2 "design_color_id" =
      Option.some (FormVal.int (combo.design_color_id : Int)) ∧
    dictGet d2 "carcass_design_combination_id" =
      Option.some (FormVal.int (combo.id : Int)) := by
  simp only [on_model_change, dictPop] at h
  rw [hres] at h
  simp only at h
  cases h3 : relFieldStep "coffee_machine" "coffee_machine_id" false
      (fun v => match v with
        | FormVal.machineRef i => Option.some i
        | _ => Option.none)
      (Option.some model.coffee_machine_id) isc
      (dictSet (dictSet (dictSet (dictSet
        (data.filter (fun p => p.1 ≠ "carcass_design_combination"))
        "carcass_design_combination_id" (FormVal.int (combo.id : Int)))
        "carcass_id" (FormVal.int (combo.carcass_id : Int)))
        "carcass_color_id" (FormVal.int (combo.carcass_color_id : Int)))
        "design_color_id" (FormVal.int (combo.design_color_id : Int))) with
  | error e =>
    rw [h3] at h
    simp at h
  | ok data3 =>
    rw [h3] at h
    simp only at h
    cases h4 : relFieldStep "fridge" "fridge_id" true
        (fun v => match v with
          | FormVal.fridgeRef i => Option.some i
          | _ => Option.none)
        model.fridge_id isc data3 with
    | error e =>
      rw [h4] at h
      simp at h
    | ok data4 =>
      rw [h4] at h
      simp only at h
      have g5 := relFieldStep_get_ne _ _ _ _ _ _ _ _ h
      have g4 := relFieldStep_get_ne _ _ _ _ _ _ _ _ h4
      have g3 := relFieldStep_get_ne _ _ _ _ _ _ _ _ h3
      refine ⟨?_, ?_, ?_, ?_⟩
      · rw [g5 _ (by decide) (by decide), g4 _ (by decide) (by decide),
          g3 _ (by decide) (by decide),
          dictGet_dictSet_ne _ _ _ _ (by decide),
          dictGet_dictSet_ne _ _ _ _ (by decide),
          dictGet_dictSet_self]
      · rw [g5 _ (by decide) (by decide), g4 _ (by decide) (by decide),
          g3 _ (by decide) (by decide),
          dictGet_dictSet_ne _ _ _ _ (by decide),
          dictGet_dictSet_self]
      · rw [g5 _ (by decide) (by decide), g4 _ (by decide) (by decide),
          g3 _ (by decide) (by decide),
          dictGet_dictSet_self]
      · rw [g5 _ (by decide) (by decide), g4 _ (by decide) (by decide),
          g3 _ (by decide) (by decide),
          dictGet_dictSet_ne _ _ _ _ (by decide),
          dictGet_dictSet_ne _ _ _ _ (by decide),
          dictGet_dictSet_ne _ _ _ _ (by decide),
          dictGet_dictSet_self]

/-- Witness for C7: a form that attaches variation 9 of cabinet 4 with
colors 5 and 6 while also trying to smuggle carcass_id 99 ends with the
variation's ids in the data dict. -/
theorem on_model_change_denormalizes_witness :
    dictGet
      [("name", FormVal.str "b"), ("carcass_id", FormVal.int 99),
        ("carcass_design_combination",
          FormVal.comboRef (Combo.mk 9 4 5 6 false)),
        ("coffee_machine", FormVal.machineRef 2),
        ("fridge", FormVal.none), ("terminal", FormVal.none)]
      "carcass_design_combination" =
      Option.some (FormVal.comboRef (Combo.mk 9 4 5 6 false)) ∧
    ∃ d2, on_model_change [] (Bundle.mk 1 2 Option.none 3 3 3 Option.none
        Option.none Option.none Option.none true true) true
      [("name", FormVal.str "b"), ("carcass_id", FormVal.int 99),
        ("carcass_design_combination",
          FormVal.comboRef (Combo.mk 9 4 5 6 false)),
        ("coffee_machine", FormVal.machineRef 2),
        ("fridge", FormVal.none), ("terminal", FormVal.none)] =
        Except.ok d2 ∧
      dictGet d2 "carcass_id" = Option.some (FormVal.int 4) ∧
      dictGet d2 "carcass_color_id" = Option.some (FormVal.int 5) ∧
      dictGet d2 "design_color_id" = Option.some (FormVal.int 6) ∧
      dictGet d2 "carcass_design_combination_id" =
        Option.some (FormVal.int 9) := by
  refine ⟨by rfl, ?_⟩
  refine ⟨_, rfl, ?_⟩
  exact (on_model_change_denormalizes []
    (Bundle.mk 1 2 Option.none 3 3 3 Option.none Option.none Option.none
      Option.none true true) true
    [("name", FormVal.str "b"), ("carcass_id", FormVal.int 99),
      ("carcass_design_combination",
        FormVal.comboRef (Combo.mk 9 4 5 6 false)),
      ("coffee_machine", FormVal.machineRef 2),
      ("fridge", FormVal.none), ("terminal", FormVal.none)]
    _ (Combo.mk 9 4 5 6 false) (by rfl) rfl)

/-! ## Claim C9: media reference resolution -/

theorem rstripSlashes_no_trailing (s : String) :
    endsWithSlash (rstripSlashes s) = false := by
  unfold endsWithSlash rstripSlashes
  show (((s.data.reverse.dropWhile (fun c => c = '/')).reverse).getLast? ==
    Option.some '/') = false
  rw [List.getLast?_reverse]
  have h := List.head?_dropWhile_not (fun c => decide (c = '/')) s.data.reverse
  cases hh : (s.data.reverse.dropWhile (fun c => decide (c = '/'))).head? with
  | none => simp [hh]
  | some c =>
    rw [hh] at h
    simp only [decide_eq_false_iff_not] at h
    simp [hh, h]

/-- Counterexample for C9: the reference "ftp://files/x.png" has a
scheme, yet the resolver does not return it unchanged — only the two
hard-coded http prefixes count as absolute, so it gets glued onto the
base URL. -/
theorem absolute_url_scheme_cx :
    absolute_url (Option.some "ftp://files/x.png") "http://h/" =
      Option.some "http://h/ftp://files/x.png" ∧
    absolute_url (Option.some "ftp://files/x.png") "http://h/" ≠
      Option.some "ftp://files/x.png" := by
  constructor
  · rfl
  · decide

/-- C9 (amended): a reference is returned unchanged exactly when it
starts with "http://" or "https://" (not for every scheme); any other
non-empty reference is appended to the base URL stripped of its trailing
slashes, with one slash inserted when the reference does not itself
start with one — in that case the stripped base never ends in a slash,
so exactly one separator stands between base and reference. -/
theorem absolute_url_amended :
    (∀ v base : String,
      startsWithStr v "http://" = true ∨ startsWithStr v "https://" = true →
      absolute_url (Option.some v) base = Option.some v) ∧
    (∀ v base : String, v ≠ "" →
      startsWithStr v "http://" = false → startsWithStr v "https://" = false →
      startsWithStr v "/" = false →
      absolute_url (Option.some v) base =
        Option.some (rstripSlashes base ++ "/" ++ v) ∧
      endsWithSlash (rstripSlashes base) = false) ∧
    (∀ v base : String, v ≠ "" →
      startsWithStr v "http://" = false → startsWithStr v "https://" = false →
      startsWithStr v "/" = true →
      absolute_url (Option.some v) base =
        Option.some (rstripSlashes base ++ v)) := by
  refine ⟨?_, ?_, ?_⟩
  · intro v base h
    have hv : v ≠ "" := by
      intro hv
      subst hv
      rcases h with h | h <;> exact absurd h (by decide)
    simp only [absolute_url]
    rw [if_neg hv, if_pos h]
  · intro v base hv h1 h2 h3
    refine ⟨?_, rstripSlashes_no_trailing base⟩
    simp only [absolute_url]
    rw [if_neg hv, if_neg (by simp [h1, h2]), if_neg (by simp [h3]),
      String.append_assoc]
  · intro v base hv h1 h2 h3
    simp only [absolute_url]
    rw [if_neg hv, if_neg (by simp [h1, h2]), if_pos h3]

/-- Witness for C9 (amended): the relative reference "media/a.png"
against base "http://h/" resolves with exactly one separator, and an
http-absolute reference passes through. -/
theorem absolute_url_amended_witness :
    (absolute_url (Option.some "media/a.png") "http://h/" =
        Option.some ("http://h" ++ "/" ++ "media/a.png") ∧
      endsWithSlash (rstripSlashes "http://h/") = false) ∧
    absolute_url (Option.some "http://cdn/a.png") "http://h/" =
      Option.some "http://cdn/a.png" := by
  constructor
  · exact absolute_url_amended.2.1 "media/a.png" "http://h/"
      (by decide) (by decide) (by decide) (by decide)
  · exact absolute_url_amended.1 "http://cdn/a.png" "http://h/"
      (Or.inl (by decide))

end Configurator
